import Mathlib

/-!
Verification of the WebSocket connected-client registry
(`src/core/message-ws/message-ws.service.ts`, class `MessageWsService`).

The registry keeps a JavaScript object `connectedClients` mapping a socket's
client id to `{ socket, user }`.  We embed that object as an association list
`List (String × ClientEntry)` with JavaScript-object semantics: assignment
`obj[k] = v` updates the (unique) existing entry for `k` in place, or appends
a new entry; `delete obj[k]` drops the entry for `k`; `Object.keys` lists the
keys in order.  Effects are made explicit: `socket.disconnect()` calls are
returned as a list of disconnected socket ids, and the `throw`s of the
TypeScript code become an `Option RegistryError` result component.
-/

namespace MessageWs

/-- The fields of the `User` entity that the registry reads: `id`,
`isActive` and `fullName` (the entity has further columns, none of which
`MessageWsService` touches). -/
structure User where
  id : String
  isActive : Bool
  fullName : String
  deriving DecidableEq, Repr

/-- A socket.io connection handle; the registry uses only its `id`
(the transport-assigned session identifier) and its `disconnect()` method,
whose invocations we record by socket id. -/
structure Socket where
  id : String
  deriving DecidableEq, Repr

/-- One value of the `connectedClients` object: `{ socket: Socket; user: User }`. -/
structure ClientEntry where
  socket : Socket
  user : User
  deriving DecidableEq, Repr

/-- The `connectedClients` object: a string-keyed map, embedded as an
insertion-ordered association list. -/
abbrev ConnectedClients := List (String × ClientEntry)

/-- Error kinds of the registry, named as in the specification:
`userNotFound` for `throw new Error('User not found')`,
`userInactive` for `throw new Error('User is not active')`, and
`sessionNotFound` for the failure of `getUserFullName` on an absent key
(in JavaScript, the property access on `undefined` throws). -/
inductive RegistryError where
  | userNotFound
  | userInactive
  | sessionNotFound
  deriving DecidableEq, Repr

/-- JavaScript object assignment `this.connectedClients[client.id] = {...}`:
update the existing entry for the key in place, otherwise append. -/
def insertEntry : ConnectedClients → String → ClientEntry → ConnectedClients
  | [], k, e => [(k, e)]
  | p :: rest, k, e =>
    if p.1 = k then (k, e) :: rest else p :: insertEntry rest k e

/-- Source `checkUserConnection(user)`: walk `Object.keys(this.connectedClients)`
in order; at the first entry whose `user.id` equals the given user's id, call
`socket.disconnect()` and `break`.  Returns the ids of the sockets that were
disconnected (zero or one). -/
def checkUserConnection (s : ConnectedClients) (user : User) : List String :=
  match s.find? (fun p => p.2.user.id == user.id) with
  | some p => [p.2.socket.id]
  | none => []

/-- Result of `registerClient`: the registry state afterwards, the ids of
sockets on which `disconnect()` was invoked, and the error thrown (if any). -/
structure RegisterResult where
  state : ConnectedClients
  evicted : List String
  error : Option RegistryError
  deriving DecidableEq, Repr

/-- Source `registerClient(client, userId)`: look the user up in the
repository (`findOneBy` yields the record or `null`), throw `User not found` /
`User is not active` before touching the map, otherwise evict via
`checkUserConnection` and store `{ socket: client, user }` under `client.id`.
The repository is passed as a function `String → Option User`. -/
def registerClient (userRepository : String → Option User) (client : Socket)
    (userId : String) (s : ConnectedClients) : RegisterResult :=
  match userRepository userId with
  | none => ⟨s, [], some .userNotFound⟩
  | some user =>
    if user.isActive then
      ⟨insertEntry s client.id ⟨client, user⟩, checkUserConnection s user, none⟩
    else
      ⟨s, [], some .userInactive⟩

/-- Source `removeClient(clientId)`: `delete this.connectedClients[clientId]`. -/
def removeClient (s : ConnectedClients) (clientId : String) : ConnectedClients :=
  s.filter (fun p => p.1 != clientId)

/-- Source `getConnectedClients()`: `Object.keys(this.connectedClients)`. -/
def getConnectedClients (s : ConnectedClients) : List String :=
  s.map (·.1)

/-- Source `getUserFullName(clientId)`:
`this.connectedClients[clientId].user.fullName`.  On an absent key the
JavaScript property access fails; the specification names that failure
`SessionNotFound`. -/
def getUserFullName (s : ConnectedClients) (clientId : String) :
    Except RegistryError String :=
  match s.find? (fun p => p.1 == clientId) with
  | some p => .ok p.2.user.fullName
  | none => .error .sessionNotFound

/-- A call into the registry's mutation surface: `register` (with the socket
and the user id) or `unregister` (with the session id). -/
inductive Op where
  | reg (client : Socket) (userId : String)
  | unreg (sessionId : String)
  deriving DecidableEq, Repr

/-- Apply one call, keeping only the resulting registry state (eviction
merely disconnects the stale socket; the entry stays until the transport's
own disconnect notification triggers `removeClient`). -/
def applyOp (dir : String → Option User) (s : ConnectedClients) : Op → ConnectedClients
  | .reg client userId => (registerClient dir client userId s).state
  | .unreg sessionId => removeClient s sessionId

/-- Run a sequence of register/unregister calls from a given state. -/
def runOps (dir : String → Option User) (ops : List Op) (s : ConnectedClients) :
    ConnectedClients :=
  ops.foldl (applyOp dir) s

/-- Apply one call in the flushed semantics: after a `register`, the
disconnect notification of every evicted session is processed (i.e.
`removeClient` runs for it) before the next call. -/
def applyOpFlush (dir : String → Option User) (s : ConnectedClients) :
    Op → ConnectedClients
  | .reg client userId =>
    let r := registerClient dir client userId s
    r.evicted.foldl removeClient r.state
  | .unreg sessionId => removeClient s sessionId

/-- Run a sequence of calls in the flushed semantics. -/
def runFlushOps (dir : String → Option User) (ops : List Op)
    (s : ConnectedClients) : ConnectedClients :=
  ops.foldl (applyOpFlush dir) s

/-- No two distinct entries of the registry share a `user.id`. -/
def DistinctUserIds (s : ConnectedClients) : Prop :=
  s.Pairwise (fun a b => a.2.user.id ≠ b.2.user.id)

instance : DecidablePred DistinctUserIds := fun s =>
  List.instDecidablePairwise s

/-- The concrete user record `{id:"u1", isActive:true, fullName:"Ada Lovelace"}`. -/
def adaUser : User := ⟨"u1", true, "Ada Lovelace"⟩

/-- A concrete one-user directory containing exactly `adaUser`. -/
def adaDirectory : String → Option User := fun uid =>
  if uid = "u1" then some adaUser else none

/-! Helper lemmas about `insertEntry` and `removeClient`. -/

theorem mem_insertEntry {s : ConnectedClients} {k : String} {e : ClientEntry}
    {p : String × ClientEntry} (h : p ∈ insertEntry s k e) :
    p = (k, e) ∨ p ∈ s := by
  induction s with
  | nil => simpa [insertEntry] using h
  | cons q t ih =>
    by_cases hq : q.1 = k
    · rw [insertEntry, if_pos hq] at h
      rcases List.mem_cons.mp h with h | h
      · exact Or.inl h
      · exact Or.inr (List.mem_cons_of_mem _ h)
    · rw [insertEntry, if_neg hq] at h
      rcases List.mem_cons.mp h with h | h
      · exact Or.inr (h ▸ List.mem_cons_self q t)
      · rcases ih h with h' | h'
        · exact Or.inl h'
        · exact Or.inr (List.mem_cons_of_mem _ h')

theorem mem_insertEntry_of_ne {s : ConnectedClients} {k : String}
    {e : ClientEntry} {p : String × ClientEntry} (hp : p ∈ s) (hne : p.1 ≠ k) :
    p ∈ insertEntry s k e := by
  induction s with
  | nil => cases hp
  | cons q t ih =>
    by_cases hq : q.1 = k
    · rw [insertEntry, if_pos hq]
      rcases List.mem_cons.mp hp with h | h
      · exact absurd (h ▸ hq) hne
      · exact List.mem_cons_of_mem _ h
    · rw [insertEntry, if_neg hq]
      rcases List.mem_cons.mp hp with h | h
      · exact h ▸ List.mem_cons_self q _
      · exact List.mem_cons_of_mem _ (ih h)

theorem find?_insertEntry_self (s : ConnectedClients) (k : String)
    (e : ClientEntry) :
    (insertEntry s k e).find? (fun p => p.1 == k) = some (k, e) := by
  induction s with
  | nil => simp [insertEntry]
  | cons q t ih =>
    by_cases hq : q.1 = k
    · rw [insertEntry, if_pos hq]
      simp
    · rw [insertEntry, if_neg hq]
      rw [List.find?_cons_of_neg _ (by simpa using hq)]
      exact ih

theorem find?_insertEntry_ne (s : ConnectedClients) {k k' : String}
    (e : ClientEntry) (h : k' ≠ k) :
    (insertEntry s k e).find? (fun p => p.1 == k') =
      s.find? (fun p => p.1 == k') := by
  induction s with
  | nil => simp [insertEntry, Ne.symm h]
  | cons q t ih =>
    by_cases hq : q.1 = k
    · rw [insertEntry, if_pos hq]
      rw [List.find?_cons_of_neg _ (by simpa using fun he => h he.symm),
        List.find?_cons_of_neg _ (by simp [hq]; exact fun he => h he.symm)]
    · rw [insertEntry, if_neg hq]
      by_cases hq' : q.1 = k'
      · rw [List.find?_cons_of_pos _ (by simpa using hq'),
          List.find?_cons_of_pos _ (by simpa using hq')]
      · rw [List.find?_cons_of_neg _ (by simpa using hq'),
          List.find?_cons_of_neg _ (by simpa using hq')]
        exact ih

theorem mem_keys_insertEntry_self (s : ConnectedClients) (k : String)
    (e : ClientEntry) : k ∈ getConnectedClients (insertEntry s k e) := by
  induction s with
  | nil => simp [insertEntry, getConnectedClients]
  | cons q t ih =>
    by_cases hq : q.1 = k
    · rw [insertEntry, if_pos hq]
      simp [getConnectedClients]
    · rw [insertEntry, if_neg hq]
      simpa [getConnectedClients] using Or.inr ih

theorem keys_insertEntry_mem {s : ConnectedClients} {k : String}
    (e : ClientEntry) (h : k ∈ getConnectedClients s) :
    getConnectedClients (insertEntry s k e) = getConnectedClients s := by
  induction s with
  | nil => cases h
  | cons q t ih =>
    by_cases hq : q.1 = k
    · rw [insertEntry, if_pos hq]
      simp [getConnectedClients, hq]
    · rw [insertEntry, if_neg hq]
      have ht : k ∈ getConnectedClients t := by
        rcases List.mem_cons.mp h with h' | h'
        · exact absurd h'.symm hq
        · exact h'
      simp only [getConnectedClients, List.map_cons] at ih ⊢
      rw [ih ht]

theorem removeClient_absent {s : ConnectedClients} {sid : String}
    (h : sid ∉ getConnectedClients s) : removeClient s sid = s :=
  List.filter_eq_self.mpr fun p hp => by
    simp only [bne_iff_ne, ne_eq]
    exact fun he => h (he ▸ List.mem_map_of_mem (·.1) hp)

theorem removeClient_insertEntry_comm {s : ConnectedClients} {j k : String}
    (e : ClientEntry) (h : j ≠ k) :
    removeClient (insertEntry s k e) j = insertEntry (removeClient s j) k e := by
  induction s with
  | nil => simp [insertEntry, removeClient, Ne.symm h]
  | cons q t ih =>
    by_cases hq : q.1 = k
    · rw [insertEntry, if_pos hq, removeClient,
        List.filter_cons_of_pos (by simp [Ne.symm h]), removeClient,
        List.filter_cons_of_pos (by simp [hq, Ne.symm h]),
        insertEntry, if_pos hq]
    · by_cases hqj : q.1 = j
      · rw [insertEntry, if_neg hq, removeClient,
          List.filter_cons_of_neg (by simp [hqj]), removeClient,
          List.filter_cons_of_neg (by simp [hqj])]
        exact ih
      · rw [insertEntry, if_neg hq, removeClient,
          List.filter_cons_of_pos (by simp [hqj]), removeClient,
          List.filter_cons_of_pos (by simp [hqj]),
          insertEntry, if_neg hq]
        rw [removeClient, removeClient] at ih
        rw [ih]

/-! Inductive invariant for the flushed semantics: keys are pairwise
distinct, user ids are pairwise distinct, and every entry is keyed by its
own socket's id (which is how `registerClient` stores entries). -/

/-- The inductive invariant maintained by the flushed semantics. -/
def RegInv (s : ConnectedClients) : Prop :=
  s.Pairwise (fun a b => a.1 ≠ b.1 ∧ a.2.user.id ≠ b.2.user.id) ∧
    ∀ p ∈ s, p.1 = p.2.socket.id

theorem RegInv.removeClient {s : ConnectedClients} (h : RegInv s)
    (k : String) : RegInv (MessageWs.removeClient s k) :=
  ⟨h.1.filter _, fun p hp => h.2 p (List.mem_of_mem_filter hp)⟩

theorem id_unique {s : ConnectedClients}
    (h : s.Pairwise (fun a b => a.2.user.id ≠ b.2.user.id))
    {p q : String × ClientEntry} (hp : p ∈ s) (hq : q ∈ s)
    (heq : p.2.user.id = q.2.user.id) : p = q := by
  induction s with
  | nil => cases hp
  | cons a t ih =>
    rcases List.mem_cons.mp hp with hp' | hp' <;>
      rcases List.mem_cons.mp hq with hq' | hq'
    · rw [hp', hq']
    · exact absurd (hp' ▸ heq) (List.rel_of_pairwise_cons h hq')
    · exact absurd (hq' ▸ heq.symm) (List.rel_of_pairwise_cons h hp')
    · exact ih h.of_cons hp' hq'

theorem RegInv.insertEntry {s : ConnectedClients} {k : String}
    {e : ClientEntry} (h : RegInv s) (hk : e.socket.id = k)
    (hid : ∀ q ∈ s, q.2.user.id = e.user.id → q.1 = k) :
    RegInv (MessageWs.insertEntry s k e) := by
  induction s with
  | nil =>
    refine ⟨List.pairwise_cons.mpr ⟨by simp, List.Pairwise.nil⟩, ?_⟩
    intro p hp
    rw [List.mem_singleton.mp hp, hk]
  | cons q t ih =>
    obtain ⟨hpw, hkm⟩ := h
    obtain ⟨hq_rel, hpw_t⟩ := List.pairwise_cons.mp hpw
    by_cases hqk : q.1 = k
    · rw [MessageWs.insertEntry, if_pos hqk]
      refine ⟨List.pairwise_cons.mpr ⟨?_, hpw_t⟩, ?_⟩
      · intro b hb
        refine ⟨hqk ▸ (hq_rel b hb).1, fun hbe => ?_⟩
        have hb1 : b.1 = k := hid b (List.mem_cons_of_mem _ hb) hbe.symm
        exact (hq_rel b hb).1 (hqk.trans hb1.symm)
      · intro p hp
        rcases List.mem_cons.mp hp with hp' | hp'
        · rw [hp', hk]
        · exact hkm p (List.mem_cons_of_mem _ hp')
    · rw [MessageWs.insertEntry, if_neg hqk]
      have hinv_t : RegInv t := ⟨hpw_t, fun p hp => hkm p (List.mem_cons_of_mem _ hp)⟩
      have hid_t : ∀ p ∈ t, p.2.user.id = e.user.id → p.1 = k :=
        fun p hp => hid p (List.mem_cons_of_mem _ hp)
      have IH := ih hinv_t hid_t
      refine ⟨List.pairwise_cons.mpr ⟨?_, IH.1⟩, ?_⟩
      · intro b hb
        rcases mem_insertEntry hb with hb' | hb'
        · refine hb' ▸ ⟨hqk, fun hqe => ?_⟩
          exact hqk (hid q (List.mem_cons_self q t) hqe)
        · exact hq_rel b hb'
      · intro p hp
        rcases List.mem_cons.mp hp with hp' | hp'
        · exact hp' ▸ hkm q (List.mem_cons_self q t)
        · exact IH.2 p hp'

theorem RegInv.applyOpFlush {s : ConnectedClients}
    (dir : String → Option User) (op : Op) (h : RegInv s) :
    RegInv (MessageWs.applyOpFlush dir s op) := by
  cases op with
  | unreg sid => exact h.removeClient sid
  | reg c uid =>
    rw [MessageWs.applyOpFlush]
    cases hdir : dir uid with
    | none => simpa [registerClient, hdir] using h
    | some u =>
      by_cases hact : u.isActive = true
      · simp only [registerClient, hdir, if_pos hact]
        cases hf : s.find? (fun p => p.2.user.id == u.id) with
        | none =>
          simp only [checkUserConnection, hf, List.foldl_nil]
          refine h.insertEntry rfl fun q hq hqe => ?_
          exact absurd (by simpa using hqe)
            (by simpa using List.find?_eq_none.mp hf q hq)
        | some p₀ =>
          have hp₀s : p₀ ∈ s := List.mem_of_find?_eq_some hf
          have hp₀id : p₀.2.user.id = u.id := by
            simpa using List.find?_some hf
          have hp₀k : p₀.1 = p₀.2.socket.id := h.2 p₀ hp₀s
          simp only [checkUserConnection, hf, List.foldl_cons, List.foldl_nil]
          rw [← hp₀k]
          by_cases hkey : p₀.1 = c.id
          · refine RegInv.removeClient ?_ p₀.1
            refine h.insertEntry rfl fun q hq hqe => ?_
            have hq_eq : q = p₀ :=
              id_unique (h.1.imp fun hh => hh.2) hq hp₀s
                (hqe.trans hp₀id.symm)
            rw [hq_eq, hkey]
          · rw [removeClient_insertEntry_comm _ hkey]
            refine (h.removeClient p₀.1).insertEntry rfl fun q hq hqe => ?_
            have hqs : q ∈ s := List.mem_of_mem_filter hq
            have hq_ne : q.1 ≠ p₀.1 := by
              have := (List.mem_filter.mp hq).2
              simpa using this
            have hq_eq : q = p₀ :=
              id_unique (h.1.imp fun hh => hh.2) hqs hp₀s
                (hqe.trans hp₀id.symm)
            exact (hq_ne (congrArg Prod.fst hq_eq)).elim
      · simpa [registerClient, hdir, hact] using h

theorem RegInv.runFlushOps {s : ConnectedClients}
    (dir : String → Option User) (ops : List Op) (h : RegInv s) :
    RegInv (MessageWs.runFlushOps dir ops s) := by
  induction ops generalizing s with
  | nil => exact h
  | cons op ops ih =>
    exact ih (h.applyOpFlush dir op)

/-- Reduction of `registerClient` on the success path: the user is found and
active, so the entry is stored under `client.id` after the eviction scan. -/
theorem registerClient_active (dir : String → Option User) (client : Socket)
    (userId : String) (s : ConnectedClients) (u : User)
    (h : dir userId = some u) (hact : u.isActive = true) :
    registerClient dir client userId s =
      ⟨insertEntry s client.id ⟨client, u⟩, checkUserConnection s u, none⟩ := by
  simp [registerClient, h, hact]

/-- Claim C1, counterexample: the registry invariant fails as stated.  With
the one-user directory, `register(connA,"u1")` then `register(connB,"u1")`
(no intervening disconnect notification) leaves both entries in the map, and
they share `user.id = "u1"`: eviction only disconnects the stale socket, it
does not remove its entry. -/
theorem two_registers_break_user_id_uniqueness :
    ¬ DistinctUserIds
      (runOps adaDirectory [Op.reg ⟨"A"⟩ "u1", Op.reg ⟨"B"⟩ "u1"] []) := by
  decide

/-- Claim C1, amended: after any sequence of `register`/`unregister` calls in
which each session evicted by a `register` has its disconnect notification
processed (`removeClient`) before the next call, no two entries of the map
share the same `user.id`. -/
theorem distinct_user_ids_of_flushed_run (dir : String → Option User)
    (ops : List Op) : DistinctUserIds (runFlushOps dir ops []) :=
  ((RegInv.runFlushOps dir ops
      ⟨List.Pairwise.nil, fun p hp => absurd hp (List.not_mem_nil p)⟩).1).imp
    fun hh => hh.2

/-- Claim C2: for every session id with no record in the registry,
`getUserFullName` fails with `sessionNotFound` (in the JavaScript source the
property access on the absent key fails; the spec names the failure
`SessionNotFound`). -/
theorem getUserFullName_unregistered (s : ConnectedClients) (sid : String)
    (h : sid ∉ getConnectedClients s) :
    getUserFullName s sid = .error .sessionNotFound := by
  have hf : s.find? (fun p => p.1 == sid) = none :=
    List.find?_eq_none.mpr fun p hp => by
      simp only [beq_iff_eq]
      exact fun he => h (he ▸ List.mem_map_of_mem (·.1) hp)
  rw [getUserFullName, hf]

/-- Witness for claim C2 at the empty registry and session id `"s1"`. -/
theorem getUserFullName_unregistered_witness :
    "s1" ∉ getConnectedClients ([] : ConnectedClients) ∧
      getUserFullName [] "s1" = .error .sessionNotFound :=
  ⟨by simp [getConnectedClients],
    getUserFullName_unregistered [] "s1" (by simp [getConnectedClients])⟩

/-- Claim C3: in every registry state containing an entry for the resolved
user's id, a successful `registerClient` invokes `disconnect()` exactly once,
on the first matching entry's socket (the scan stops at the first match), and
afterwards the new client's session id is listed among the connected
clients. -/
theorem registerClient_evicts_first_match (dir : String → Option User)
    (c : Socket) (uid : String) (s : ConnectedClients) (u : User)
    (h : dir uid = some u) (hact : u.isActive = true)
    (hex : ∃ p ∈ s, p.2.user.id = u.id) :
    (registerClient dir c uid s).error = none ∧
    (∃ p₀, s.find? (fun p => p.2.user.id == u.id) = some p₀ ∧
      (registerClient dir c uid s).evicted = [p₀.2.socket.id]) ∧
    c.id ∈ getConnectedClients (registerClient dir c uid s).state := by
  obtain ⟨p, hp, hpid⟩ := hex
  have hsome : (s.find? (fun q => q.2.user.id == u.id)).isSome :=
    List.find?_isSome.mpr ⟨p, hp, by simp [hpid]⟩
  obtain ⟨p₀, hp₀⟩ := Option.isSome_iff_exists.mp hsome
  rw [registerClient_active dir c uid s u h hact]
  refine ⟨rfl, ⟨p₀, hp₀, ?_⟩, ?_⟩
  · show checkUserConnection s u = [p₀.2.socket.id]
    rw [checkUserConnection, hp₀]
  · exact mem_keys_insertEntry_self s c.id ⟨c, u⟩

/-- Witness for claim C3: registering socket `"B"` for user `"u1"` while
socket `"A"` holds a session for `"u1"`. -/
theorem registerClient_evicts_first_match_witness :
    adaDirectory "u1" = some adaUser ∧
    adaUser.isActive = true ∧
    (∃ p ∈ [("A", (⟨⟨"A"⟩, adaUser⟩ : ClientEntry))], p.2.user.id = adaUser.id) ∧
    ((registerClient adaDirectory ⟨"B"⟩ "u1"
        [("A", ⟨⟨"A"⟩, adaUser⟩)]).error = none ∧
      (∃ p₀, [("A", (⟨⟨"A"⟩, adaUser⟩ : ClientEntry))].find?
            (fun p => p.2.user.id == adaUser.id) = some p₀ ∧
        (registerClient adaDirectory ⟨"B"⟩ "u1"
            [("A", ⟨⟨"A"⟩, adaUser⟩)]).evicted = [p₀.2.socket.id]) ∧
      (Socket.mk "B").id ∈ getConnectedClients
        (registerClient adaDirectory ⟨"B"⟩ "u1"
            [("A", ⟨⟨"A"⟩, adaUser⟩)]).state) :=
  ⟨by decide, by decide, by decide,
    registerClient_evicts_first_match adaDirectory ⟨"B"⟩ "u1"
      [("A", ⟨⟨"A"⟩, adaUser⟩)] adaUser (by decide) (by decide) (by decide)⟩

/-- Claim C4: when the directory reports the user id as absent,
`registerClient` fails with `userNotFound` and the registry map is
unchanged. -/
theorem registerClient_unknown_user (dir : String → Option User)
    (c : Socket) (uid : String) (s : ConnectedClients) (h : dir uid = none) :
    (registerClient dir c uid s).error = some .userNotFound ∧
      (registerClient dir c uid s).state = s := by
  rw [registerClient, h]
  exact ⟨rfl, rfl⟩

/-- Witness for claim C4 at the unknown user id `"u2"`. -/
theorem registerClient_unknown_user_witness :
    adaDirectory "u2" = none ∧
      ((registerClient adaDirectory ⟨"A"⟩ "u2" []).error =
          some .userNotFound ∧
        (registerClient adaDirectory ⟨"A"⟩ "u2" []).state = []) :=
  ⟨by decide,
    registerClient_unknown_user adaDirectory ⟨"A"⟩ "u2" [] (by decide)⟩

/-- Claim C5: when the directory's record for the user id is marked
inactive, `registerClient` fails with `userInactive` and the registry map is
unchanged. -/
theorem registerClient_inactive_user (dir : String → Option User)
    (c : Socket) (uid : String) (s : ConnectedClients) (u : User)
    (h : dir uid = some u) (hin : u.isActive = false) :
    (registerClient dir c uid s).error = some .userInactive ∧
      (registerClient dir c uid s).state = s := by
  simp [registerClient, h, hin]

/-- Witness for claim C5 with an inactive user record. -/
theorem registerClient_inactive_user_witness :
    (fun _ : String => some (⟨"u2", false, "Grace Hopper"⟩ : User)) "u2" =
        some (⟨"u2", false, "Grace Hopper"⟩ : User) ∧
    (⟨"u2", false, "Grace Hopper"⟩ : User).isActive = false ∧
    ((registerClient (fun _ => some ⟨"u2", false, "Grace Hopper"⟩) ⟨"A"⟩
          "u2" []).error = some .userInactive ∧
      (registerClient (fun _ => some ⟨"u2", false, "Grace Hopper"⟩) ⟨"A"⟩
          "u2" []).state = []) :=
  ⟨rfl, rfl,
    registerClient_inactive_user (fun _ => some ⟨"u2", false, "Grace Hopper"⟩)
      ⟨"A"⟩ "u2" [] ⟨"u2", false, "Grace Hopper"⟩ rfl rfl⟩

/-- Claim C6: `removeClient` on a session id with no record is a no-op — the
registry map is unchanged (and the operation is total, so nothing is
raised). -/
theorem removeClient_unregistered_noop (s : ConnectedClients) (sid : String)
    (h : sid ∉ getConnectedClients s) : removeClient s sid = s :=
  removeClient_absent h

/-- Witness for claim C6 at session id `"x"` and a one-entry registry. -/
theorem removeClient_unregistered_noop_witness :
    "x" ∉ getConnectedClients [("A", (⟨⟨"A"⟩, adaUser⟩ : ClientEntry))] ∧
      removeClient [("A", ⟨⟨"A"⟩, adaUser⟩)] "x" =
        [("A", ⟨⟨"A"⟩, adaUser⟩)] :=
  ⟨by decide,
    removeClient_unregistered_noop [("A", ⟨⟨"A"⟩, adaUser⟩)] "x" (by decide)⟩

/-- Claim C7: after a successful `registerClient`, `getUserFullName` on the
new session id returns exactly the `fullName` of the user record `u` that the
directory supplied at registration time.  The stored record is a snapshot:
`getUserFullName` reads only the registry state and never consults the
directory, so a later change of the directory's record cannot affect the
answer. -/
theorem getUserFullName_returns_snapshot (dir : String → Option User)
    (c : Socket) (uid : String) (s : ConnectedClients) (u : User)
    (h : dir uid = some u) (hact : u.isActive = true) :
    getUserFullName (registerClient dir c uid s).state c.id =
      .ok u.fullName := by
  rw [registerClient_active dir c uid s u h hact]
  show getUserFullName (insertEntry s c.id ⟨c, u⟩) c.id = .ok u.fullName
  rw [getUserFullName, find?_insertEntry_self]

/-- Witness for claim C7: registering socket `"A"` for `"u1"` and reading the
display name back. -/
theorem getUserFullName_returns_snapshot_witness :
    adaDirectory "u1" = some adaUser ∧
    adaUser.isActive = true ∧
    getUserFullName (registerClient adaDirectory ⟨"A"⟩ "u1" []).state
        (Socket.mk "A").id = .ok adaUser.fullName :=
  ⟨by decide, by decide,
    getUserFullName_returns_snapshot adaDirectory ⟨"A"⟩ "u1" [] adaUser
      (by decide) (by decide)⟩

/-- Claim C8, scenario: with the directory record `{id:"u1", isActive:true,
fullName:"Ada Lovelace"}`, `register(connA,"u1")` succeeds;
`getDisplayName(connA.sessionId)` returns `"Ada Lovelace"`;
`register(connB,"u1")` succeeds and disconnects exactly socket `"A"`; after
`unregister(connA.sessionId)`, the list of active session ids is exactly
`["B"]`. -/
theorem ada_lovelace_scenario :
    (registerClient adaDirectory ⟨"A"⟩ "u1" []).error = none ∧
    getUserFullName (registerClient adaDirectory ⟨"A"⟩ "u1" []).state "A" =
      .ok "Ada Lovelace" ∧
    (registerClient adaDirectory ⟨"B"⟩ "u1"
        (registerClient adaDirectory ⟨"A"⟩ "u1" []).state).error = none ∧
    (registerClient adaDirectory ⟨"B"⟩ "u1"
        (registerClient adaDirectory ⟨"A"⟩ "u1" []).state).evicted = ["A"] ∧
    getConnectedClients
        (removeClient
          (registerClient adaDirectory ⟨"B"⟩ "u1"
              (registerClient adaDirectory ⟨"A"⟩ "u1" []).state).state "A") =
      ["B"] :=
  ⟨rfl, rfl, rfl, rfl, rfl⟩

/-- Claim C9: when `registerClient` evicts the entry `p₀` (the first entry
for the resolved user's id) and the new session id differs from `p₀`'s key,
the call does not remove `p₀` from the map — `p₀` is still present
afterwards — and the record of every session id other than the new client's
is unchanged. -/
theorem register_keeps_evicted_entry (dir : String → Option User)
    (c : Socket) (uid : String) (s : ConnectedClients) (u : User)
    (p₀ : String × ClientEntry) (k : String) (h : dir uid = some u)
    (hact : u.isActive = true)
    (hf : s.find? (fun p => p.2.user.id == u.id) = some p₀)
    (hne : p₀.1 ≠ c.id) (hk : k ≠ c.id) :
    (registerClient dir c uid s).error = none ∧
    p₀ ∈ (registerClient dir c uid s).state ∧
    getUserFullName (registerClient dir c uid s).state k =
      getUserFullName s k := by
  rw [registerClient_active dir c uid s u h hact]
  refine ⟨rfl, ?_, ?_⟩
  · exact mem_insertEntry_of_ne (List.mem_of_find?_eq_some hf) hne
  · show getUserFullName (insertEntry s c.id ⟨c, u⟩) k = getUserFullName s k
    rw [getUserFullName, getUserFullName, find?_insertEntry_ne s ⟨c, u⟩ hk]

/-- Witness for claim C9: socket `"B"` registers for `"u1"` while socket
`"A"` holds the session; `"A"`'s record survives and the lookup of the
unrelated id `"Z"` is unchanged. -/
theorem register_keeps_evicted_entry_witness :
    adaDirectory "u1" = some adaUser ∧
    adaUser.isActive = true ∧
    [("A", (⟨⟨"A"⟩, adaUser⟩ : ClientEntry))].find?
        (fun p => p.2.user.id == adaUser.id) = some ("A", ⟨⟨"A"⟩, adaUser⟩) ∧
    ("A", (⟨⟨"A"⟩, adaUser⟩ : ClientEntry)).1 ≠ (Socket.mk "B").id ∧
    "Z" ≠ (Socket.mk "B").id ∧
    ((registerClient adaDirectory ⟨"B"⟩ "u1"
          [("A", ⟨⟨"A"⟩, adaUser⟩)]).error = none ∧
      ("A", (⟨⟨"A"⟩, adaUser⟩ : ClientEntry)) ∈
        (registerClient adaDirectory ⟨"B"⟩ "u1"
            [("A", ⟨⟨"A"⟩, adaUser⟩)]).state ∧
      getUserFullName (registerClient adaDirectory ⟨"B"⟩ "u1"
            [("A", ⟨⟨"A"⟩, adaUser⟩)]).state "Z" =
        getUserFullName [("A", ⟨⟨"A"⟩, adaUser⟩)] "Z") :=
  ⟨by decide, by decide, by decide, by decide, by decide,
    register_keeps_evicted_entry adaDirectory ⟨"B"⟩ "u1"
      [("A", ⟨⟨"A"⟩, adaUser⟩)] adaUser ("A", ⟨⟨"A"⟩, adaUser⟩) "Z"
      (by decide) (by decide) (by decide) (by decide) (by decide)⟩

/-- Claim C10: if the new client's session id already keys an entry, a
successful `registerClient` silently overwrites that entry in place (last
write wins): it does not fail, the key set of the map is unchanged, and the
lookup of the session id now yields the new record. -/
theorem register_overwrites_duplicate_session (dir : String → Option User)
    (c : Socket) (uid : String) (s : ConnectedClients) (u : User)
    (h : dir uid = some u) (hact : u.isActive = true)
    (hmem : c.id ∈ getConnectedClients s) :
    (registerClient dir c uid s).error = none ∧
    (registerClient dir c uid s).state.find? (fun p => p.1 == c.id) =
      some (c.id, ⟨c, u⟩) ∧
    getConnectedClients (registerClient dir c uid s).state =
      getConnectedClients s := by
  rw [registerClient_active dir c uid s u h hact]
  exact ⟨rfl, find?_insertEntry_self s c.id ⟨c, u⟩,
    keys_insertEntry_mem ⟨c, u⟩ hmem⟩

/-- Witness for claim C10: socket `"A"` re-registers while its id already
keys an entry. -/
theorem register_overwrites_duplicate_session_witness :
    adaDirectory "u1" = some adaUser ∧
    adaUser.isActive = true ∧
    (Socket.mk "A").id ∈
      getConnectedClients [("A", (⟨⟨"A"⟩, adaUser⟩ : ClientEntry))] ∧
    ((registerClient adaDirectory ⟨"A"⟩ "u1"
          [("A", ⟨⟨"A"⟩, adaUser⟩)]).error = none ∧
      (registerClient adaDirectory ⟨"A"⟩ "u1"
            [("A", ⟨⟨"A"⟩, adaUser⟩)]).state.find?
          (fun p => p.1 == (Socket.mk "A").id) =
        some ((Socket.mk "A").id, ⟨⟨"A"⟩, adaUser⟩) ∧
      getConnectedClients (registerClient adaDirectory ⟨"A"⟩ "u1"
            [("A", ⟨⟨"A"⟩, adaUser⟩)]).state =
        getConnectedClients [("A", ⟨⟨"A"⟩, adaUser⟩)]) :=
  ⟨by decide, by decide, by decide,
    register_overwrites_duplicate_session adaDirectory ⟨"A"⟩ "u1"
      [("A", ⟨⟨"A"⟩, adaUser⟩)] adaUser (by decide) (by decide) (by decide)⟩

end MessageWs
